import Mathlib

/-!
Verification of the context-store subsystem in
`src/lib/vector-vrl/functions/src/context.rs`.

The file shallowly embeds the two operations `OpenContextFn::resolve` and
`UpdateContextFn::resolve` together with the process-wide store
(`GlobalContext` / `SingleContext`).  Machine integers are modelled as
`Nat` / `Int` with explicit reductions modulo `2 ^ 64` where the Rust code
casts between `u64` and `i64`, the `HashMap<u64, SingleContext>` is
modelled as an association list with `HashMap` lookup/insert semantics,
`Instant` is modelled as an abstract `Nat` time point, and Rust panics are
modelled as an explicit error constructor distinct from VRL expression
errors.
-/

namespace ContextStore

/-- Payload values, modelling the vrl `Value` union that the store holds
(per the spec: null, boolean, integer, string/bytes, ordered sequence,
ordered map; objects are `BTreeMap`s, modelled as key-sorted association
lists).  Floats and timestamps are not needed by any claim and are
omitted. -/
inductive Value where
  | null : Value
  | boolean (b : Bool) : Value
  | integer (i : Int) : Value
  | bytes (s : String) : Value
  | array (xs : List Value) : Value
  | object (fields : List (String × Value)) : Value
deriving Repr

/-- Rust `u64 as i64`: reinterpret an unsigned 64-bit value (a `Nat`
below `2 ^ 64`) as a signed two-complement 64-bit integer.  This models
`Value::Integer(hash as i64)` at `context.rs:111`. -/
def u64AsI64 (h : Nat) : Int :=
  if h < 2 ^ 63 then (h : Int) else (h : Int) - 2 ^ 64

/-- Rust `i64 as u64`: reinterpret a signed 64-bit integer as an unsigned
64-bit value.  This models `*key_value as u64` at `context.rs:182`. -/
def i64AsU64 (k : Int) : Nat :=
  (k % (2 ^ 64 : Int)).toNat

/-- Lookup in a `String`-keyed object (`ObjectMap::get`). -/
def objectGet : List (String × Value) → String → Option Value
  | [], _ => none
  | (k', v) :: rest, k => if k = k' then some v else objectGet rest k

/-- Insertion into a key-sorted object, modelling `BTreeMap::insert` as
used to build the result map of `open_context` (`context.rs:110-112`). -/
def objectInsert : List (String × Value) → String → Value → List (String × Value)
  | [], k, v => [(k, v)]
  | (k', v') :: rest, k, v =>
    if k < k' then (k, v) :: (k', v') :: rest
    else if k = k' then (k, v) :: rest
    else (k', v') :: objectInsert rest k v

/-- One stored context (`SingleContext` in `context.rs:30-33`): the
payload and the absolute expiry instant. -/
structure SingleContext where
  data : Value
  untilInstant : Nat
deriving Repr

/-- The process-wide store (`GlobalContext` in `context.rs:18-20`): a map
from derived 64-bit key to entry, modelled as an association list with
`HashMap` semantics (at most one binding per key is an invariant proved
below, not baked into the representation). -/
structure GlobalContext where
  contexts : List (Nat × SingleContext)
deriving Repr

/-- `HashMap::get` / vacancy test of the `Entry` API. -/
def storeFind : List (Nat × SingleContext) → Nat → Option SingleContext
  | [], _ => none
  | (k', v) :: rest, k => if k = k' then some v else storeFind rest k

/-- `HashMap::insert`: replace the binding in place when the key is
present, append a fresh binding otherwise. -/
def storeInsert : List (Nat × SingleContext) → Nat → SingleContext → List (Nat × SingleContext)
  | [], k, v => [(k, v)]
  | (k', v') :: rest, k, v =>
    if k = k' then (k, v) :: rest else (k', v') :: storeInsert rest k v

/-- Errors of a `resolve` call.  `expressionError` is a returned
`Err(ExpressionError)`; `invalidArgument` is the InvalidArgument
condition the spec prescribes for malformed calls; `panicked` models a
Rust panic (a `panic!` or a failed `unwrap`), which aborts the call
without touching the map. -/
inductive VrlError where
  | expressionError (msg : String) : VrlError
  | invalidArgument (msg : String) : VrlError
  | panicked (msg : String) : VrlError
deriving Repr

mutual

/-- Modelled from the spec: the hasher byte stream.  The structural
`Hash` instance of the external vrl `Value` type is library code outside
this repository; per spec section 4.1 the derivation is a deterministic
pure function of the ordered, nested structure (same type, same value,
same order, same nesting give the same stream).  We encode each value as
a tag followed by length-prefixed contents. -/
def encodeValue : Value → List Nat
  | Value.null => [0]
  | Value.boolean b => [1, if b then 1 else 0]
  | Value.integer i => [2, i64AsU64 i]
  | Value.bytes s => 3 :: s.length :: s.data.map Char.toNat
  | Value.array xs => 4 :: xs.length :: encodeValues xs
  | Value.object fs => 5 :: fs.length :: encodeFields fs

/-- Encoding of an ordered sequence of values, element by element. -/
def encodeValues : List Value → List Nat
  | [] => []
  | v :: vs => encodeValue v ++ encodeValues vs

/-- Encoding of the ordered fields of an object. -/
def encodeFields : List (String × Value) → List Nat
  | [] => []
  | (k, v) :: fs => k.length :: (k.data.map Char.toNat ++ encodeValue v ++ encodeFields fs)

end

/-- One mixing step of the 64-bit hash, kept below `2 ^ 64` by an
explicit reduction. -/
def fnv64step (h b : Nat) : Nat :=
  ((h ^^^ b) * 1099511628211) % 2 ^ 64

/-- Modelled from the spec: the 64-bit hasher.  `DefaultHasher`
(SipHash with fixed zero keys, `context.rs:96-98`) is std library code
outside this repository; the spec only requires a deterministic 64-bit
content hash, which we model as an FNV-1a style fold over the encoded
stream. -/
def fnv64 (stream : List Nat) : Nat :=
  stream.foldl fnv64step 14695981039346656037

/-- Key derivation (`context.rs:95-98`): hash the ordered sequence of
resolved lookup values (`Vec::hash` prefixes the length) into a 64-bit
key. -/
def deriveKey (keys : List Value) : Nat :=
  fnv64 (keys.length :: encodeValues keys)

/-- `OpenContextFn::resolve` (`context.rs:94-115`).  Arguments arrive
already evaluated (spec section 6); `now` is the abstract current
instant.  Returns the call result together with the post-state of the
store; an error result leaves the store exactly as it was, which is what
the Rust code does (the `or_insert_with` closure panics before anything
is inserted). -/
def openContextResolve (keys : List Value) (timeout : Int) (now : Nat)
    (g : GlobalContext) : Except VrlError Value × GlobalContext :=
  let hash := deriveKey keys
  match storeFind g.contexts hash with
  | some entry =>
    (Except.ok (Value.object
      (objectInsert (objectInsert [] "key" (Value.integer (u64AsI64 hash)))
        "data" entry.data)), g)
  | none =>
    if timeout < 0 then
      (Except.error (VrlError.panicked
        "called Result::unwrap on an Err value: TryFromIntError"), g)
    else
      let entry : SingleContext := ⟨Value.object [], now + timeout.toNat⟩
      (Except.ok (Value.object
        (objectInsert (objectInsert [] "key" (Value.integer (u64AsI64 hash)))
          "data" entry.data)),
       ⟨storeInsert g.contexts hash entry⟩)

/-- `UpdateContextFn::resolve` (`context.rs:169-188`).  The context
argument arrives already evaluated; a malformed shape panics (the
`let-else panic!` and the two `unwrap`s) before the map is touched, so an
error result carries the store unchanged. -/
def updateContextResolve (context : Value) (now : Nat)
    (g : GlobalContext) : Except VrlError Value × GlobalContext :=
  match context with
  | Value.object fields =>
    match objectGet fields "key" with
    | none =>
      (Except.error (VrlError.panicked "called Option::unwrap on a None value"), g)
    | some keyVal =>
      match keyVal with
      | Value.integer keyValue =>
        match objectGet fields "data" with
        | none =>
          (Except.error (VrlError.panicked "called Option::unwrap on a None value"), g)
        | some d =>
          (Except.ok Value.null,
           ⟨storeInsert g.contexts (i64AsU64 keyValue) ⟨d, now⟩⟩)
      | _ => (Except.error (VrlError.panicked "Expected key to be integer"), g)
  | _ => (Except.error (VrlError.panicked "Expected context to be an object"), g)

/-- The at-most-one-entry-per-key invariant of the store. -/
def storeKeysNodup (m : List (Nat × SingleContext)) : Prop :=
  (m.map Prod.fst).Nodup

/-! Helper lemmas. -/

theorem objectInsert_key_data (kv dv : Value) :
    objectInsert (objectInsert [] "key" kv) "data" dv = [("data", dv), ("key", kv)] := by
  show objectInsert [("key", kv)] "data" dv = [("data", dv), ("key", kv)]
  unfold objectInsert
  rw [if_pos (by rw [String.lt_iff_toList_lt]; decide : ("data" : String) < "key")]

theorem storeFind_storeInsert (m : List (Nat × SingleContext)) (k : Nat)
    (v : SingleContext) : storeFind (storeInsert m k v) k = some v := by
  induction m with
  | nil => simp [storeInsert, storeFind]
  | cons hd tl ih =>
    by_cases h : k = hd.1
    · simp [storeInsert, storeFind, h]
    · simp [storeInsert, storeFind, h, ih]

theorem fnv64step_lt (h b : Nat) : fnv64step h b < 2 ^ 64 := by
  exact Nat.mod_lt _ (by norm_num)

theorem fnv64_lt (stream : List Nat) : fnv64 stream < 2 ^ 64 := by
  unfold fnv64
  have key : ∀ (l : List Nat) (init : Nat), init < 2 ^ 64 →
      l.foldl fnv64step init < 2 ^ 64 := by
    intro l
    induction l with
    | nil => intro init h; simpa using h
    | cons hd tl ih => intro init _; exact ih _ (fnv64step_lt init hd)
  exact key _ _ (by norm_num)

theorem deriveKey_lt (keys : List Value) : deriveKey keys < 2 ^ 64 :=
  fnv64_lt _

theorem u64AsI64_roundtrip (h : Nat) (hh : h < 2 ^ 64) :
    i64AsU64 (u64AsI64 h) = h := by
  unfold u64AsI64 i64AsU64
  split <;> omega

theorem storeInsert_keys (m : List (Nat × SingleContext)) (k : Nat)
    (v : SingleContext) :
    (storeInsert m k v).map Prod.fst =
      if k ∈ m.map Prod.fst then m.map Prod.fst else m.map Prod.fst ++ [k] := by
  induction m with
  | nil => simp [storeInsert]
  | cons hd tl ih =>
    by_cases h : k = hd.1
    · simp [storeInsert, h]
    · simp only [storeInsert, h, ite_false, List.map_cons, ih]
      by_cases h2 : k ∈ tl.map Prod.fst
      · simp [h2, Ne.symm, h]
      · simp [h2, h]

theorem storeInsert_keys_nodup (m : List (Nat × SingleContext)) (k : Nat)
    (v : SingleContext) (hm : storeKeysNodup m) :
    storeKeysNodup (storeInsert m k v) := by
  unfold storeKeysNodup at hm ⊢
  rw [storeInsert_keys]
  by_cases h : k ∈ m.map Prod.fst
  · simpa [h] using hm
  · simp only [h, ite_false]
    rw [List.nodup_append]
    exact ⟨hm, List.nodup_singleton k, by simpa using h⟩

/-- Characterization of open on a vacant key with a representable TTL:
a fresh entry with empty data and expiry now plus the TTL is appended,
and the result object carries exactly the data and key fields. -/
theorem openResolve_vacant (keys : List Value) (timeout : Int) (now : Nat)
    (g : GlobalContext) (habs : storeFind g.contexts (deriveKey keys) = none)
    (ht : 0 ≤ timeout) :
    openContextResolve keys timeout now g =
      (Except.ok (Value.object [("data", Value.object []),
          ("key", Value.integer (u64AsI64 (deriveKey keys)))]),
        ⟨storeInsert g.contexts (deriveKey keys)
          ⟨Value.object [], now + timeout.toNat⟩⟩) := by
  simp only [openContextResolve, habs]
  rw [if_neg (by omega), objectInsert_key_data]

/-- Characterization of open on an occupied key: the store is untouched
and the entry's data is returned, for any TTL argument. -/
theorem openResolve_found (keys : List Value) (timeout : Int) (now : Nat)
    (g : GlobalContext) (e : SingleContext)
    (hfind : storeFind g.contexts (deriveKey keys) = some e) :
    openContextResolve keys timeout now g =
      (Except.ok (Value.object [("data", e.data),
          ("key", Value.integer (u64AsI64 (deriveKey keys)))]), g) := by
  simp only [openContextResolve, hfind]
  rw [objectInsert_key_data]

/-- Characterization of update on a well-shaped context object. -/
theorem updateResolve_ok (fields : List (String × Value)) (k : Int) (d : Value)
    (now : Nat) (g : GlobalContext)
    (hk : objectGet fields "key" = some (Value.integer k))
    (hd : objectGet fields "data" = some d) :
    updateContextResolve (Value.object fields) now g =
      (Except.ok Value.null, ⟨storeInsert g.contexts (i64AsU64 k) ⟨d, now⟩⟩) := by
  simp [updateContextResolve, hk, hd]

/-! Claim theorems. -/

/-- Claim C1: for every call to open made when the store contains no
entry for the derived key (and a representable, non-negative TTL, the
argument domain the spec fixes for seconds), open inserts a new entry
whose data is an empty map and whose expiry instant is now plus the
requested seconds, and returns an object with exactly two fields: key
(the derived 64-bit key reinterpreted as a signed integer) and data (a
copy of the entry's data, the empty map). -/
theorem open_creates_fresh_entry (keys : List Value) (timeout : Int) (now : Nat)
    (g : GlobalContext)
    (habs : storeFind g.contexts (deriveKey keys) = none)
    (ht : 0 ≤ timeout) :
    openContextResolve keys timeout now g =
      (Except.ok (Value.object [("data", Value.object []),
          ("key", Value.integer (u64AsI64 (deriveKey keys)))]),
        ⟨storeInsert g.contexts (deriveKey keys)
          ⟨Value.object [], now + timeout.toNat⟩⟩) ∧
    storeFind (storeInsert g.contexts (deriveKey keys)
        ⟨Value.object [], now + timeout.toNat⟩) (deriveKey keys) =
      some ⟨Value.object [], now + timeout.toNat⟩ :=
  ⟨openResolve_vacant keys timeout now g habs ht, storeFind_storeInsert _ _ _⟩

/-- Witness for C1 at a concrete call on the empty store. -/
theorem open_creates_fresh_entry_witness :
    openContextResolve [Value.bytes "k"] 5 0 ⟨[]⟩ =
      (Except.ok (Value.object [("data", Value.object []),
          ("key", Value.integer (u64AsI64 (deriveKey [Value.bytes "k"])))]),
        ⟨storeInsert [] (deriveKey [Value.bytes "k"])
          ⟨Value.object [], 0 + (5 : Int).toNat⟩⟩) ∧
    storeFind (storeInsert [] (deriveKey [Value.bytes "k"])
        ⟨Value.object [], 0 + (5 : Int).toNat⟩) (deriveKey [Value.bytes "k"]) =
      some ⟨Value.object [], 0 + (5 : Int).toNat⟩ :=
  open_creates_fresh_entry [Value.bytes "k"] 5 0 ⟨[]⟩ rfl (by decide)

/-- Claim C2: for every call to open made when the store already
contains an entry for the derived key, the store is returned completely
untouched (in particular that entry's data and expiry are unmodified),
regardless of whether the entry has expired and regardless of the
seconds argument (negative values included), and open returns a copy of
the entry's current data. -/
theorem open_existing_entry_untouched (keys : List Value) (timeout : Int)
    (now : Nat) (g : GlobalContext) (e : SingleContext)
    (hfind : storeFind g.contexts (deriveKey keys) = some e) :
    openContextResolve keys timeout now g =
      (Except.ok (Value.object [("data", e.data),
          ("key", Value.integer (u64AsI64 (deriveKey keys)))]), g) :=
  openResolve_found keys timeout now g e hfind

/-- Witness for C2: an already-expired entry served under a negative
seconds argument, with the store returned unchanged. -/
theorem open_existing_entry_untouched_witness :
    openContextResolve [Value.bytes "k"] (-1) 100
        ⟨[(deriveKey [Value.bytes "k"], ⟨Value.integer 7, 3⟩)]⟩ =
      (Except.ok (Value.object [("data", Value.integer 7),
          ("key", Value.integer (u64AsI64 (deriveKey [Value.bytes "k"])))]),
        ⟨[(deriveKey [Value.bytes "k"], ⟨Value.integer 7, 3⟩)]⟩) :=
  open_existing_entry_untouched [Value.bytes "k"] (-1) 100
    ⟨[(deriveKey [Value.bytes "k"], ⟨Value.integer 7, 3⟩)]⟩ ⟨Value.integer 7, 3⟩ rfl

/-- Claim C3: key derivation is deterministic within a process run: two
ordered sequences of lookup values that are element-wise structurally
equal (same length and equal value at every position, order-sensitive)
derive the same 64-bit key. -/
theorem deriveKey_deterministic (a b : List Value)
    (hlen : a.length = b.length)
    (helem : ∀ i : Nat, (hi : i < a.length) → (hj : i < b.length) →
      a.get ⟨i, hi⟩ = b.get ⟨i, hj⟩) :
    deriveKey a = deriveKey b := by
  have hab : a = b := List.ext_get hlen helem
  rw [hab]

/-- Witness for C3 at a concrete two-element sequence. -/
theorem deriveKey_deterministic_witness :
    deriveKey [Value.integer 1, Value.null] =
      deriveKey [Value.integer 1, Value.null] :=
  deriveKey_deterministic [Value.integer 1, Value.null]
    [Value.integer 1, Value.null] rfl (fun _ _ _ => rfl)

/-- Claim C4: for every call to update whose context object carries an
integer key field and a present data field, update unconditionally sets
the store's entry for that key so that its data equals the supplied
value — replacing the entry when one exists and inserting a fresh one
otherwise, so update never fails for an unknown key — and returns
null. -/
theorem update_sets_data (fields : List (String × Value)) (k : Int) (d : Value)
    (now : Nat) (g : GlobalContext)
    (hk : objectGet fields "key" = some (Value.integer k))
    (hd : objectGet fields "data" = some d) :
    updateContextResolve (Value.object fields) now g =
      (Except.ok Value.null, ⟨storeInsert g.contexts (i64AsU64 k) ⟨d, now⟩⟩) ∧
    storeFind (storeInsert g.contexts (i64AsU64 k) ⟨d, now⟩) (i64AsU64 k) =
      some ⟨d, now⟩ :=
  ⟨updateResolve_ok fields k d now g hk hd, storeFind_storeInsert _ _ _⟩

/-- Witness for C4 at a concrete call on the empty store (an unknown
key, so the insert-if-absent branch is exercised). -/
theorem update_sets_data_witness :
    updateContextResolve
        (Value.object [("data", Value.boolean true), ("key", Value.integer 2)]) 9 ⟨[]⟩ =
      (Except.ok Value.null,
        ⟨storeInsert [] (i64AsU64 2) ⟨Value.boolean true, 9⟩⟩) ∧
    storeFind (storeInsert [] (i64AsU64 2) ⟨Value.boolean true, 9⟩) (i64AsU64 2) =
      some ⟨Value.boolean true, 9⟩ :=
  update_sets_data [("data", Value.boolean true), ("key", Value.integer 2)]
    2 (Value.boolean true) 9 ⟨[]⟩ rfl rfl

/-- Claim C5: after every successful update, the stored entry's expiry
is not extended by any TTL: it is reset to the instant of the update
itself, marking the entry as immediately stale. -/
theorem update_resets_expiry (fields : List (String × Value)) (k : Int) (d : Value)
    (now : Nat) (g : GlobalContext)
    (hk : objectGet fields "key" = some (Value.integer k))
    (hd : objectGet fields "data" = some d) :
    ∃ e : SingleContext,
      (updateContextResolve (Value.object fields) now g).1 = Except.ok Value.null ∧
      storeFind ((updateContextResolve (Value.object fields) now g).2).contexts
        (i64AsU64 k) = some e ∧
      e.untilInstant = now := by
  refine ⟨⟨d, now⟩, ?_, ?_, rfl⟩
  · simp only [updateResolve_ok fields k d now g hk hd]
  · simp only [updateResolve_ok fields k d now g hk hd]
    exact storeFind_storeInsert _ _ _

/-- Witness for C5 at a concrete update over an existing entry whose
expiry lay far in the future. -/
theorem update_resets_expiry_witness :
    ∃ e : SingleContext,
      (updateContextResolve
        (Value.object [("data", Value.null), ("key", Value.integer 2)]) 9
        ⟨[(i64AsU64 2, ⟨Value.null, 1000⟩)]⟩).1 = Except.ok Value.null ∧
      storeFind ((updateContextResolve
        (Value.object [("data", Value.null), ("key", Value.integer 2)]) 9
        ⟨[(i64AsU64 2, ⟨Value.null, 1000⟩)]⟩).2).contexts (i64AsU64 2) = some e ∧
      e.untilInstant = 9 :=
  update_resets_expiry [("data", Value.null), ("key", Value.integer 2)]
    2 Value.null 9 ⟨[(i64AsU64 2, ⟨Value.null, 1000⟩)]⟩ rfl rfl

/-- Claim C6, code behavior at the failing input: open with a negative
seconds argument and no existing entry for the derived key panics on the
signed-to-unsigned TTL conversion (a failed unwrap) instead of raising
an InvalidArgument condition; the store is left unmodified (no entry is
created). -/
theorem open_negative_ttl_panics :
    openContextResolve [Value.bytes "k"] (-1) 0 ⟨[]⟩ =
      (Except.error (VrlError.panicked
        "called Result::unwrap on an Err value: TryFromIntError"), ⟨[]⟩) := rfl

/-- Claim C7, code behavior at the failing inputs: update panics —
rather than raising an InvalidArgument condition — when the context
object is missing the key field, when the key field is not an integer,
and when the data field is absent; in each case the store is left
unmodified. -/
theorem update_invalid_shape_panics :
    (updateContextResolve (Value.object [("data", Value.object [])]) 0 ⟨[]⟩ =
      (Except.error (VrlError.panicked
        "called Option::unwrap on a None value"), ⟨[]⟩)) ∧
    (updateContextResolve
        (Value.object [("data", Value.object []), ("key", Value.bytes "x")]) 0 ⟨[]⟩ =
      (Except.error (VrlError.panicked "Expected key to be integer"), ⟨[]⟩)) ∧
    (updateContextResolve (Value.object [("key", Value.integer 1)]) 0 ⟨[]⟩ =
      (Except.error (VrlError.panicked
        "called Option::unwrap on a None value"), ⟨[]⟩)) :=
  ⟨rfl, rfl, rfl⟩

/-- Claim C8: for every sequential composition of open with the lookup
values, then update with the key the first open returned and a new data
value, then open with the same lookup values (no intervening operation,
so no fresh create supersedes the entry): the first open returns the
derived key, the update returns null, and the second open observes
exactly the updated data. -/
theorem open_update_open_visibility (keys : List Value) (s s2 : Int) (d : Value)
    (t1 t2 t3 : Nat) (g : GlobalContext) (hs : 0 ≤ s) :
    (∃ ret1, (openContextResolve keys s t1 g).1 =
        Except.ok (Value.object ret1) ∧
      objectGet ret1 "key" =
        some (Value.integer (u64AsI64 (deriveKey keys)))) ∧
    (updateContextResolve (Value.object [("data", d),
        ("key", Value.integer (u64AsI64 (deriveKey keys)))]) t2
        (openContextResolve keys s t1 g).2).1 = Except.ok Value.null ∧
    (openContextResolve keys s2 t3
        (updateContextResolve (Value.object [("data", d),
          ("key", Value.integer (u64AsI64 (deriveKey keys)))]) t2
          (openContextResolve keys s t1 g).2).2).1 =
      Except.ok (Value.object [("data", d),
        ("key", Value.integer (u64AsI64 (deriveKey keys)))]) := by
  have hround : i64AsU64 (u64AsI64 (deriveKey keys)) = deriveKey keys :=
    u64AsI64_roundtrip _ (deriveKey_lt keys)
  have hget1 : objectGet [("data", d),
      ("key", Value.integer (u64AsI64 (deriveKey keys)))] "key" =
      some (Value.integer (u64AsI64 (deriveKey keys))) := rfl
  have hget2 : objectGet [("data", d),
      ("key", Value.integer (u64AsI64 (deriveKey keys)))] "data" = some d := rfl
  rcases hfind : storeFind g.contexts (deriveKey keys) with _ | e
  · have h1 := openResolve_vacant keys s t1 g hfind hs
    have h2 := updateResolve_ok
      [("data", d), ("key", Value.integer (u64AsI64 (deriveKey keys)))]
      (u64AsI64 (deriveKey keys)) d t2
      ⟨storeInsert g.contexts (deriveKey keys)
        ⟨Value.object [], t1 + s.toNat⟩⟩ hget1 hget2
    have h3 := openResolve_found keys s2 t3
      ⟨storeInsert (storeInsert g.contexts (deriveKey keys)
          ⟨Value.object [], t1 + s.toNat⟩)
        (i64AsU64 (u64AsI64 (deriveKey keys))) ⟨d, t2⟩⟩ ⟨d, t2⟩
      (by rw [hround]; exact storeFind_storeInsert _ _ _)
    refine ⟨⟨[("data", Value.object []),
        ("key", Value.integer (u64AsI64 (deriveKey keys)))], ?_, rfl⟩, ?_, ?_⟩
    · simp only [h1]
    · simp only [h1, h2]
    · simp only [h1, h2, h3]
  · have h1 := openResolve_found keys s t1 g e hfind
    have h2 := updateResolve_ok
      [("data", d), ("key", Value.integer (u64AsI64 (deriveKey keys)))]
      (u64AsI64 (deriveKey keys)) d t2 g hget1 hget2
    have h3 := openResolve_found keys s2 t3
      ⟨storeInsert g.contexts (i64AsU64 (u64AsI64 (deriveKey keys))) ⟨d, t2⟩⟩
      ⟨d, t2⟩ (by rw [hround]; exact storeFind_storeInsert _ _ _)
    refine ⟨⟨[("data", e.data),
        ("key", Value.integer (u64AsI64 (deriveKey keys)))], ?_, rfl⟩, ?_, ?_⟩
    · simp only [h1]
    · simp only [h1, h2]
    · simp only [h1, h2, h3]

/-- Witness for C8 at a concrete open, update, open sequence. -/
theorem open_update_open_visibility_witness :
    (∃ ret1, (openContextResolve [Value.bytes "k"] 5 0 ⟨[]⟩).1 =
        Except.ok (Value.object ret1) ∧
      objectGet ret1 "key" =
        some (Value.integer (u64AsI64 (deriveKey [Value.bytes "k"])))) ∧
    (updateContextResolve (Value.object [("data", Value.integer 1),
        ("key", Value.integer (u64AsI64 (deriveKey [Value.bytes "k"])))]) 1
        (openContextResolve [Value.bytes "k"] 5 0 ⟨[]⟩).2).1 =
      Except.ok Value.null ∧
    (openContextResolve [Value.bytes "k"] 7 2
        (updateContextResolve (Value.object [("data", Value.integer 1),
          ("key", Value.integer (u64AsI64 (deriveKey [Value.bytes "k"])))]) 1
          (openContextResolve [Value.bytes "k"] 5 0 ⟨[]⟩).2).2).1 =
      Except.ok (Value.object [("data", Value.integer 1),
        ("key", Value.integer (u64AsI64 (deriveKey [Value.bytes "k"])))]) :=
  open_update_open_visibility [Value.bytes "k"] 5 7 (Value.integer 1)
    0 1 2 ⟨[]⟩ (by decide)

/-- Claim C9: the store contains at most one entry per derived 64-bit
key, and every open and every update call — whatever its arguments and
whichever path it takes, the create-if-absent step of open included —
preserves this invariant. -/
theorem store_at_most_one_entry_per_key (g : GlobalContext)
    (hg : storeKeysNodup g.contexts) (keys : List Value) (timeout : Int)
    (now : Nat) (context : Value) (now2 : Nat) :
    storeKeysNodup ((openContextResolve keys timeout now g).2).contexts ∧
    storeKeysNodup ((updateContextResolve context now2 g).2).contexts := by
  constructor
  · rcases hfind : storeFind g.contexts (deriveKey keys) with _ | e
    · by_cases ht : timeout < 0
      · simpa [openContextResolve, hfind, ht] using hg
      · simpa [openContextResolve, hfind, ht] using
          storeInsert_keys_nodup _ _ _ hg
    · simpa [openContextResolve, hfind] using hg
  · cases context with
    | object fields =>
      rcases hkey : objectGet fields "key" with _ | kv
      · simpa [updateContextResolve, hkey] using hg
      · cases kv with
        | integer k =>
          rcases hdata : objectGet fields "data" with _ | dv
          · simpa [updateContextResolve, hkey, hdata] using hg
          · simpa [updateContextResolve, hkey, hdata] using
              storeInsert_keys_nodup _ _ _ hg
        | null => simpa [updateContextResolve, hkey] using hg
        | boolean b => simpa [updateContextResolve, hkey] using hg
        | bytes sb => simpa [updateContextResolve, hkey] using hg
        | array xs => simpa [updateContextResolve, hkey] using hg
        | object fs => simpa [updateContextResolve, hkey] using hg
    | null => simpa [updateContextResolve] using hg
    | boolean b => simpa [updateContextResolve] using hg
    | integer i => simpa [updateContextResolve] using hg
    | bytes sb => simpa [updateContextResolve] using hg
    | array xs => simpa [updateContextResolve] using hg

/-- Witness for C9 on the empty store. -/
theorem store_at_most_one_entry_per_key_witness :
    storeKeysNodup ((openContextResolve [Value.bytes "k"] 5 0 ⟨[]⟩).2).contexts ∧
    storeKeysNodup ((updateContextResolve
      (Value.object [("data", Value.null), ("key", Value.integer 2)]) 0
      ⟨[]⟩).2).contexts :=
  store_at_most_one_entry_per_key ⟨[]⟩ (by simp [storeKeysNodup])
    [Value.bytes "k"] 5 0
    (Value.object [("data", Value.null), ("key", Value.integer 2)]) 0

/-- Claim C10: the unsigned-to-signed reinterpretation that open applies
to the derived 64-bit key and the signed-to-unsigned reinterpretation
that update applies to the key it receives are mutually inverse on every
64-bit value — in particular on every derived key — so update addresses
exactly the entry open created or fetched; and whenever the derived key
is at least 2 to the 63rd power, the integer open returns is
negative. -/
theorem key_cast_roundtrip :
    (∀ h : Nat, h < 2 ^ 64 → i64AsU64 (u64AsI64 h) = h) ∧
    (∀ keys : List Value,
      i64AsU64 (u64AsI64 (deriveKey keys)) = deriveKey keys) ∧
    (∀ h : Nat, 2 ^ 63 ≤ h → h < 2 ^ 64 → u64AsI64 h < 0) := by
  refine ⟨fun h hh => u64AsI64_roundtrip h hh,
    fun keys => u64AsI64_roundtrip _ (deriveKey_lt keys), ?_⟩
  intro h h1 h2
  unfold u64AsI64
  rw [if_neg (by omega)]
  omega

/-- Witness for C10 at the largest 64-bit key, whose signed
reinterpretation is negative. -/
theorem key_cast_roundtrip_witness :
    i64AsU64 (u64AsI64 (2 ^ 64 - 1)) = 2 ^ 64 - 1 ∧
    u64AsI64 (2 ^ 64 - 1) < 0 :=
  ⟨key_cast_roundtrip.1 (2 ^ 64 - 1) (by decide),
   key_cast_roundtrip.2.2 (2 ^ 64 - 1) (by decide) (by decide)⟩

end ContextStore
